import Mathlib

/-!
# KinetiCandles: verification of the time-bucketing / candle-aggregation core

Shallow embedding of the KinetiCandles repository's core logic
(`src/KinetiCandles_v3.py` and the legacy near-duplicate `src/candle.py`):
resolution detection, interval bucketing, candle aggregation, window
validation, and the daily/weekly pattern classifiers.  Timestamps are
modelled as explicit calendar fields or epoch seconds; activity levels as
rationals; pandas NaN rows as `Option`.
-/

namespace KinetiCandles

/-- The seven canonical weekday labels (`DAYS_OF_WEEK` in the source). -/
inductive Weekday where
  | monday | tuesday | wednesday | thursday | friday | saturday | sunday
deriving DecidableEq, Repr

/-- `DAYS_OF_WEEK = ['Monday', ..., 'Sunday']`, fixed Monday→Sunday order. -/
def DAYS_OF_WEEK : List Weekday :=
  [.monday, .tuesday, .wednesday, .thursday, .friday, .saturday, .sunday]

/-! ## Window validation and view state
`KinetiCandlesApp.update_high_res_view` (KinetiCandles_v3.py lines 1059-1110,
candle.py lines 465-487).  The method first stores the requested hours into
`self.selected_start_hour` / `self.selected_end_hour`, then validates them,
raising `ValueError` (caught and shown as the "Invalid Time Window" message
box) on violation; only after validation does it switch `current_view` to
`"high_res"`. -/

/-- The mutable view state of the application that
`update_high_res_view` touches. -/
structure ViewState where
  selected_start_hour : Int
  selected_end_hour : Int
  current_view : String
deriving DecidableEq, Repr

/-- `KinetiCandlesApp.update_high_res_view` (KinetiCandles_v3.py
lines 1059-1110): assigns the requested hours to the state, validates, and
returns the error message (if any) together with the state after the call.
The `except ValueError` handler only displays the message, so mutations made
before the `raise` persist. -/
def update_high_res_view (st : ViewState) (s e : Int) : Option String × ViewState :=
  let st1 : ViewState := { st with selected_start_hour := s, selected_end_hour := e }
  if s < 0 ∨ s > 23 then
    (some "Start hour must be between 0 and 23", st1)
  else if e < 0 ∨ e > 24 then
    (some "End hour must be between 0 and 24", st1)
  else if e ≤ s then
    (some "End hour must be greater than start hour", st1)
  else if e - s > 4 then
    (some "Time window must be 4 hours or less", st1)
  else
    (none, { st1 with current_view := "high_res" })

/-! ## Daily pattern classification
`DataModel.analyze_day_patterns` (KinetiCandles_v3.py lines 288-345);
the same decision chain appears in candle.py lines 586-605.  Input rows are
the hourly aggregates `(hour, mean activity)` for the current day. -/

/-- Mean of the `mean` column over hourly rows whose hour lies in
`[lo, hi]` (pandas `between` is inclusive); `0` when the segment is empty
(the `if len(...) > 0 else 0` guards). -/
def segmentMean (rows : List (Nat × ℚ)) (lo hi : Nat) : ℚ :=
  let seg := rows.filter (fun r => lo ≤ r.1 && r.1 ≤ hi)
  if seg.length = 0 then 0 else (seg.map Prod.snd).sum / seg.length

/-- The daily pattern decision chain over the three segment means
(KinetiCandles_v3.py lines 306-316). -/
def dayPatternType (morning midday evening : ℚ) : String :=
  if morning > midday ∧ morning > evening then "morning_peak"
  else if evening > morning ∧ evening > midday then "evening_peak"
  else if midday > morning ∧ midday > evening then "midday_peak"
  else if |morning - evening| < 5 ∧ morning > midday then "bimodal"
  else "consistent"

/-- `pattern_type` as computed by `analyze_day_patterns`: segment means are
morning = hours [6,11], midday = [12,17], evening = [18,23]. -/
def analyze_day_pattern (rows : List (Nat × ℚ)) : String :=
  dayPatternType (segmentMean rows 6 11) (segmentMean rows 12 17) (segmentMean rows 18 23)

/-! ## Interval bucketing and candle aggregation
`DataModel.get_candle_data` (KinetiCandles_v3.py lines 208-258).  A sample is
`(epoch seconds, activity_level)`; the window data arrives in ascending
timestamp order, which bucketing preserves. -/

/-- `interval = (epoch // interval_seconds) * interval_seconds`
(KinetiCandles_v3.py line 222); Python `//` is floor division, hence
`Int.fdiv`. -/
def bucket_start (epoch width : Int) : Int :=
  (Int.fdiv epoch width) * width

/-- The samples of the bucket keyed by `k` (the `groupby('interval')`
group), in their original order. -/
def bucketSamples (samples : List (Int × ℚ)) (width k : Int) : List (Int × ℚ) :=
  samples.filter (fun s => bucket_start s.1 width == k)

/-- One candle record: `first`/`last` from positional order
(`iloc[0]`/`iloc[-1]`), `max`/`min` value-wise. -/
structure Candle where
  first : ℚ
  last : ℚ
  max : ℚ
  min : ℚ
deriving DecidableEq, Repr

/-- Aggregate one bucket's activity levels into a candle; `none` when the
bucket has fewer than 2 samples (`if len(group) > 1` at line 229). -/
def mkCandle : List ℚ → Option Candle
  | a :: b :: rest =>
      some { first := a
             last := (b :: rest).getLastD a
             max := (b :: rest).foldl max a
             min := (b :: rest).foldl min a }
  | _ => none

/-- `DataModel.get_candle_data`: bucket the window samples by epoch-aligned
interval start and emit a candle for every bucket with at least 2 samples,
keyed by the bucket start. -/
def get_candle_data (samples : List (Int × ℚ)) (width : Int) :
    List (Int × Candle) :=
  ((samples.map (fun s => bucket_start s.1 width)).dedup).filterMap
    (fun k => (mkCandle ((bucketSamples samples width k).map Prod.snd)).map
      (fun c => (k, c)))

/-- `DataModel.get_high_resolution_data` window filter (KinetiCandles_v3.py
lines 188-191): keep samples of the current day whose hour lies in
`[start_hour, end_hour)`.  `hourOfEpoch` is the hour-of-day of an epoch
second. -/
def hourOfEpoch (epoch : Int) : Int :=
  Int.fdiv (epoch % 86400) 3600

/-- The window filter of `get_high_resolution_data`. -/
def windowFilter (samples : List (Int × ℚ)) (start_hour end_hour : Int) :
    List (Int × ℚ) :=
  samples.filter (fun s => start_hour ≤ hourOfEpoch s.1 && hourOfEpoch s.1 < end_hour)

/-! ## Weekly aggregation and classification
`DataModel.get_weekly_data` (KinetiCandles_v3.py lines 163-171),
`ChartView.plot_week_view` (lines 443-491) and
`DataModel.analyze_week_patterns` (lines 338-380).  A weekly sample is
`(day_of_week, activity_level)`. -/

/-- The pooled activity levels carrying a given weekday label, in original
row order (the `groupby('day_of_week')` group). -/
def dayValues (samples : List (Weekday × ℚ)) (d : Weekday) : List ℚ :=
  (samples.filter (fun s => s.1 == d)).map Prod.snd

/-- One row of the weekly aggregate: mean/max/min/count of the pooled
samples for one weekday label.  (The source also aggregates `std`, which no
verified claim reads and which is irrational in general; it is omitted.) -/
structure WeekStats where
  mean : ℚ
  max : ℚ
  min : ℚ
  count : Nat
deriving DecidableEq, Repr

/-- Aggregate one weekday label; `none` models the NaN row that
`.reindex(DAYS_OF_WEEK)` creates for a label with no samples. -/
def aggDay (samples : List (Weekday × ℚ)) (d : Weekday) : Option WeekStats :=
  match dayValues samples d with
  | [] => none
  | a :: rest =>
      some { mean := (a :: rest).sum / (a :: rest).length
             max := rest.foldl max a
             min := rest.foldl min a
             count := (a :: rest).length }

/-- `DataModel.get_weekly_data`: group by `day_of_week`, aggregate, and
reindex to the fixed Monday→Sunday label list (always exactly 7 rows). -/
def get_weekly_data (samples : List (Weekday × ℚ)) :
    List (Weekday × Option WeekStats) :=
  DAYS_OF_WEEK.map (fun d => (d, aggDay samples d))

/-- The candle `ChartView.plot_week_view` (KinetiCandles_v3.py lines
464-488) draws for one weekly row: `open_val = close_val = mean`,
`high_val = max`, `low_val = min`.  After the reindex every label is in the
index, so the `if day not in weekly_data.index: continue` guard never
skips; a NaN row (absent day) yields an invisible NaN candle, modelled as
`none`. -/
def plot_week_view_candles (samples : List (Weekday × ℚ)) :
    List (Weekday × Option Candle) :=
  (get_weekly_data samples).map (fun r =>
    (r.1, r.2.map (fun st =>
      { first := st.mean, last := st.mean, max := st.max, min := st.min })))

/-- The candle the legacy `KinetiCandlesApp.plot_week_view`
(candle.py lines 281-316) draws: it pools the samples of each label,
SKIPS labels with no data (`continue`), and uses the actual first and last
pooled samples as open/close (`iloc[0]`/`iloc[-1]`). -/
def plot_week_view_candles_legacy (samples : List (Weekday × ℚ)) :
    List (Weekday × Candle) :=
  DAYS_OF_WEEK.filterMap (fun d =>
    match dayValues samples d with
    | [] => none
    | a :: rest =>
        some (d, { first := a
                   last := (a :: rest).getLastD a
                   max := rest.foldl max a
                   min := rest.foldl min a }))

/-! ### `DataModel.analyze_week_patterns` (KinetiCandles_v3.py lines 338-380)
`daily_avg = weekly_data['mean'].fillna(0)` — the reindexed mean column with
NaN (absent) days replaced by 0, indexed by all 7 labels. -/

/-- `daily_avg`: the 7 per-day label/value pairs after `fillna(0)`. -/
def daily_avg (samples : List (Weekday × ℚ)) : List (Weekday × ℚ) :=
  (get_weekly_data samples).map (fun r => (r.1, ((r.2.map WeekStats.mean).getD 0)))

/-- Label-based row selection `daily_avg[d]` (0 for a label not in the
index, which cannot happen after the reindex). -/
def daily_avg_at (samples : List (Weekday × ℚ)) (d : Weekday) : ℚ :=
  match (daily_avg samples).find? (fun p => p.1 == d) with
  | some p => p.2
  | none => 0

/-- `weekday_days`: the Monday–Friday labels present in `daily_avg.index`
(all five, since the index was reindexed to all 7 labels). -/
def weekday_days (samples : List (Weekday × ℚ)) : List Weekday :=
  (DAYS_OF_WEEK.take 5).filter (fun d => (daily_avg samples).any (fun p => p.1 == d))

/-- `weekend_days`: likewise for Saturday/Sunday. -/
def weekend_days (samples : List (Weekday × ℚ)) : List Weekday :=
  (DAYS_OF_WEEK.drop 5).filter (fun d => (daily_avg samples).any (fun p => p.1 == d))

/-- pandas `.mean()` of a list of values. -/
def meanOfList (l : List ℚ) : ℚ := l.sum / l.length

/-- `weekday_avg = daily_avg[weekday_days].mean() if weekday_days else 0`. -/
def weekday_avg (samples : List (Weekday × ℚ)) : ℚ :=
  if weekday_days samples = [] then 0
  else meanOfList ((weekday_days samples).map (daily_avg_at samples))

/-- `weekend_avg = daily_avg[weekend_days].mean() if weekend_days else 0`. -/
def weekend_avg (samples : List (Weekday × ℚ)) : ℚ :=
  if weekend_days samples = [] then 0
  else meanOfList ((weekend_days samples).map (daily_avg_at samples))

/-- `Series.idxmax`: label of the first row attaining the maximum value
(strict `<` keeps the earliest maximum). -/
def idxmaxAux (cur : Weekday × ℚ) : List (Weekday × ℚ) → Weekday × ℚ
  | [] => cur
  | q :: rest => idxmaxAux (if cur.2 < q.2 then q else cur) rest

/-- `Series.idxmin`: label of the first row attaining the minimum value. -/
def idxminAux (cur : Weekday × ℚ) : List (Weekday × ℚ) → Weekday × ℚ
  | [] => cur
  | q :: rest => idxminAux (if q.2 < cur.2 then q else cur) rest

/-- `most_active_day = daily_avg.idxmax() if not daily_avg.isna().all() else
None` (guarded by `if not daily_avg.empty`); after `fillna(0)` no NaN
remains, so only the emptiness guard is live. -/
def most_active_day (samples : List (Weekday × ℚ)) : Option Weekday :=
  match daily_avg samples with
  | [] => none
  | p :: rest => some (idxmaxAux p rest).1

/-- `least_active_day = daily_avg.idxmin()` under the same guards. -/
def least_active_day (samples : List (Weekday × ℚ)) : Option Weekday :=
  match daily_avg samples with
  | [] => none
  | p :: rest => some (idxminAux p rest).1

/-! ## Resolution detection
`DataModel.detect_data_resolution` (KinetiCandles_v3.py lines 118-135).
`sample = data.sample(sample_size) if len(data) > sample_size else data`
with `sample_size = min(1000, len(data))`, so the random draw happens
exactly when the series has more than 1000 rows; otherwise `sample`
ALIASES the original frame, and the subsequent
`sample['minute_key'] = ...` column assignment mutates it in place. -/

/-- A timestamp with calendar fields at second precision. -/
structure TS where
  year : Nat
  month : Nat
  day : Nat
  hour : Nat
  minute : Nat
  second : Nat
deriving DecidableEq, Repr

/-- `strftime('%Y-%m-%d %H:%M')`: the minute-truncated key. -/
def minuteKey (t : TS) : Nat × Nat × Nat × Nat × Nat :=
  (t.year, t.month, t.day, t.hour, t.minute)

/-- `(records_per_minute > 1).any()`: some minute-truncated key groups more
than one row. -/
def hasMultiPerMinute (rows : List TS) : Bool :=
  (rows.map minuteKey).any (fun k => 1 < (rows.map minuteKey).count k)

/-- The classification `detect_data_resolution` computes
(`self.has_second_resolution`): on a series of more than 1000 rows it is
computed from the random draw `chosen`, otherwise from the full series. -/
def detect_data_resolution (rows : List TS) (chosen : List TS) : Bool :=
  if 1000 < rows.length then hasMultiPerMinute chosen
  else hasMultiPerMinute rows

/-- The loaded data frame: its rows and the names of any columns present
beyond the required `timestamp` / `activity_level` / `day_of_week`. -/
structure Frame where
  rows : List (TS × ℚ)
  extraCols : List String
deriving DecidableEq, Repr

/-- `detect_data_resolution` as a state transformer on the frame: returns
the classification and the frame after the call.  For at most 1000 rows the
sampled frame aliases the input, so `sample['minute_key'] = ...` adds (or
overwrites) a `minute_key` column on the input frame; for more than 1000
rows the column lands on the sampled copy and the input is untouched. -/
def detect_data_resolution_run (df : Frame) (chosen : List TS) :
    Bool × Frame :=
  if 1000 < df.rows.length then
    (hasMultiPerMinute chosen, df)
  else
    (hasMultiPerMinute (df.rows.map Prod.fst),
     { df with extraCols :=
         if "minute_key" ∈ df.extraCols then df.extraCols
         else df.extraCols ++ ["minute_key"] })

/-! ## Helper lemmas on left folds of `max` / `min` -/

/-- The seed is below the `max`-fold. -/
lemma le_foldl_max_init (l : List ℚ) (a : ℚ) : a ≤ l.foldl max a := by
  induction l generalizing a with
  | nil => exact le_refl a
  | cons b t ih => exact le_trans (le_max_left a b) (ih (max a b))

/-- Every list element is below the `max`-fold. -/
lemma le_foldl_max_mem (l : List ℚ) (a x : ℚ) (hx : x ∈ l) :
    x ≤ l.foldl max a := by
  induction l generalizing a with
  | nil => cases hx
  | cons b t ih =>
      rcases List.mem_cons.mp hx with h | h
      · subst h
        exact le_trans (le_max_right a x) (le_foldl_max_init t (max a x))
      · exact ih (max a b) h

/-- The `max`-fold is the seed or a list element. -/
lemma foldl_max_mem (l : List ℚ) (a : ℚ) :
    l.foldl max a = a ∨ l.foldl max a ∈ l := by
  induction l generalizing a with
  | nil => exact Or.inl rfl
  | cons b t ih =>
      rcases ih (max a b) with h | h
      · rcases max_choice a b with hm | hm
        · exact Or.inl (by rw [List.foldl_cons, h, hm])
        · exact Or.inr (by rw [List.foldl_cons, h, hm]; exact List.mem_cons_self b t)
      · exact Or.inr (List.mem_cons_of_mem b h)

/-- The seed is above the `min`-fold. -/
lemma foldl_min_le_init (l : List ℚ) (a : ℚ) : l.foldl min a ≤ a := by
  induction l generalizing a with
  | nil => exact le_refl a
  | cons b t ih => exact le_trans (ih (min a b)) (min_le_left a b)

/-- Every list element is above the `min`-fold. -/
lemma foldl_min_le_mem (l : List ℚ) (a x : ℚ) (hx : x ∈ l) :
    l.foldl min a ≤ x := by
  induction l generalizing a with
  | nil => cases hx
  | cons b t ih =>
      rcases List.mem_cons.mp hx with h | h
      · subst h
        exact le_trans (foldl_min_le_init t (min a x)) (min_le_right a x)
      · exact ih (min a b) h

/-- The `min`-fold is the seed or a list element. -/
lemma foldl_min_mem (l : List ℚ) (a : ℚ) :
    l.foldl min a = a ∨ l.foldl min a ∈ l := by
  induction l generalizing a with
  | nil => exact Or.inl rfl
  | cons b t ih =>
      rcases ih (min a b) with h | h
      · rcases min_choice a b with hm | hm
        · exact Or.inl (by rw [List.foldl_cons, h, hm])
        · exact Or.inr (by rw [List.foldl_cons, h, hm]; exact List.mem_cons_self b t)
      · exact Or.inr (List.mem_cons_of_mem b h)

/-! ## C5: window validation -/

/-- C5 (confirmed): `update_high_res_view` reports an invalid-window error
iff `start_hour < 0 ∨ start_hour > 23 ∨ end_hour < 0 ∨ end_hour > 24 ∨
end_hour ≤ start_hour ∨ end_hour − start_hour > 4`; it stores the requested
hours verbatim (no clamping); `(10, 8)` and `(5, 10)` are rejected and
`(8, 10)` is accepted. -/
theorem window_validation_iff_and_no_clamp :
    (∀ (st : ViewState) (s e : Int),
      ((update_high_res_view st s e).1.isSome = true ↔
        (s < 0 ∨ s > 23 ∨ e < 0 ∨ e > 24 ∨ e ≤ s ∨ e - s > 4)) ∧
      (update_high_res_view st s e).2.selected_start_hour = s ∧
      (update_high_res_view st s e).2.selected_end_hour = e) ∧
    (update_high_res_view ⟨0, 0, "day"⟩ 10 8).1.isSome = true ∧
    (update_high_res_view ⟨0, 0, "day"⟩ 5 10).1.isSome = true ∧
    (update_high_res_view ⟨0, 0, "day"⟩ 8 10).1 = none := by
  refine ⟨fun st s e => ?_, by decide, by decide, by decide⟩
  unfold update_high_res_view
  refine ⟨?_, ?_, ?_⟩ <;> split_ifs with h1 h2 h3 h4 <;> simp <;> omega

/-! ## C3: view-state mutation on an invalid window -/

/-- C3 counterexample: from the view state (start 8, end 10, view "day"),
the invalid request (5, 10) (5-hour span) is rejected with an error, yet
the stored `selected_start_hour` has changed from 8 to 5. -/
theorem invalid_window_mutates_selected_hours :
    (update_high_res_view ⟨8, 10, "day"⟩ 5 10).1.isSome = true ∧
    (update_high_res_view ⟨8, 10, "day"⟩ 5 10).2.selected_start_hour = 5 ∧
    ((5 : Int) ≠ 8) := by decide

/-- C3 (corrected): on an invalid window the error is surfaced and
`current_view` is left unchanged, but `selected_start_hour` and
`selected_end_hour` are overwritten with the requested values before
validation runs. -/
theorem invalid_window_error_keeps_view_mode :
    ∀ (st : ViewState) (s e : Int),
      (s < 0 ∨ s > 23 ∨ e < 0 ∨ e > 24 ∨ e ≤ s ∨ e - s > 4) →
      (update_high_res_view st s e).1.isSome = true ∧
      (update_high_res_view st s e).2.current_view = st.current_view ∧
      (update_high_res_view st s e).2.selected_start_hour = s ∧
      (update_high_res_view st s e).2.selected_end_hour = e := by
  intro st s e hbad
  unfold update_high_res_view
  refine ⟨?_, ?_, ?_, ?_⟩ <;> split_ifs with h1 h2 h3 h4 <;> simp <;> omega

/-- Witness for C3's theorem at the concrete state (8, 10, "day") and the
invalid request (5, 10). -/
theorem invalid_window_error_keeps_view_mode_witness :
    ((5 : Int) < 0 ∨ (5 : Int) > 23 ∨ (10 : Int) < 0 ∨ (10 : Int) > 24 ∨
      (10 : Int) ≤ 5 ∨ (10 : Int) - 5 > 4) ∧
    ((update_high_res_view ⟨8, 10, "day"⟩ 5 10).1.isSome = true ∧
     (update_high_res_view ⟨8, 10, "day"⟩ 5 10).2.current_view = "day" ∧
     (update_high_res_view ⟨8, 10, "day"⟩ 5 10).2.selected_start_hour = 5 ∧
     (update_high_res_view ⟨8, 10, "day"⟩ 5 10).2.selected_end_hour = 10) :=
  ⟨by decide, invalid_window_error_keeps_view_mode ⟨8, 10, "day"⟩ 5 10 (by decide)⟩

/-! ## C4: daily classification priority order -/

set_option maxHeartbeats 2000000 in
/-- C4 (confirmed): the daily pattern rules fire in exactly the source's
priority order with strict comparisons, first match winning, and the
segment means (50, 30, 50) classify as "bimodal". -/
theorem day_pattern_priority_order :
    (∀ m mid e : ℚ,
      (dayPatternType m mid e = "morning_peak" ↔ (m > mid ∧ m > e)) ∧
      (dayPatternType m mid e = "evening_peak" ↔
        (¬(m > mid ∧ m > e) ∧ (e > m ∧ e > mid))) ∧
      (dayPatternType m mid e = "midday_peak" ↔
        (¬(m > mid ∧ m > e) ∧ ¬(e > m ∧ e > mid) ∧ (mid > m ∧ mid > e))) ∧
      (dayPatternType m mid e = "bimodal" ↔
        (¬(m > mid ∧ m > e) ∧ ¬(e > m ∧ e > mid) ∧ ¬(mid > m ∧ mid > e) ∧
          (|m - e| < 5 ∧ m > mid))) ∧
      (dayPatternType m mid e = "consistent" ↔
        (¬(m > mid ∧ m > e) ∧ ¬(e > m ∧ e > mid) ∧ ¬(mid > m ∧ mid > e) ∧
          ¬(|m - e| < 5 ∧ m > mid)))) ∧
    analyze_day_pattern [(8, 50), (13, 30), (20, 50)] = "bimodal" := by
  constructor
  · intro m mid e
    unfold dayPatternType
    split_ifs with h1 h2 h3 h4 <;> refine ⟨?_, ?_, ?_, ?_, ?_⟩ <;>
      first
        | exact iff_of_true rfl (by tauto)
        | exact iff_of_false (by simp) (by tauto)
  · have h6 : segmentMean [(8, 50), (13, 30), (20, 50)] 6 11 = 50 := by
      norm_num [segmentMean, List.filter]
    have h12 : segmentMean [(8, 50), (13, 30), (20, 50)] 12 17 = 30 := by
      norm_num [segmentMean, List.filter]
    have h18 : segmentMean [(8, 50), (13, 30), (20, 50)] 18 23 = 50 := by
      norm_num [segmentMean, List.filter]
    rw [analyze_day_pattern, h6, h12, h18]
    norm_num [dayPatternType]

/-! ## C6: epoch-aligned interval bucketing -/

/-- C6 (confirmed): for positive width `W`, `bucket_start` is the unique
multiple of `W` with `bucket_start ≤ epoch < bucket_start + W` — alignment
is to absolute epoch time; bucketing commutes with the window filter (hence
does not depend on the window's start); and a sample at 08:07:31 of any day
(`epoch = 86400·d + 29251`) falls with `W = 60` in the bucket starting at
08:07:00 (`86400·d + 29220`). -/
theorem bucket_assignment_epoch_aligned :
    (∀ epoch width : Int, 0 < width →
      width ∣ bucket_start epoch width ∧
      bucket_start epoch width ≤ epoch ∧
      epoch < bucket_start epoch width + width) ∧
    (∀ (samples : List (Int × ℚ)) (sh eh width k : Int),
      bucketSamples (windowFilter samples sh eh) width k =
        windowFilter (bucketSamples samples width k) sh eh) ∧
    (∀ d : Int, bucket_start (86400 * d + 29251) 60 = 86400 * d + 29220) := by
  have hmain : ∀ epoch width : Int, 0 < width →
      width ∣ bucket_start epoch width ∧
      bucket_start epoch width ≤ epoch ∧
      epoch < bucket_start epoch width + width := by
    intro e w hw
    have hne : w ≠ 0 := ne_of_gt hw
    have hfd : Int.fdiv e w = e / w := Int.fdiv_eq_ediv e (le_of_lt hw)
    have h1 : w * (e / w) + e % w = e := Int.ediv_add_emod e w
    have h2 : 0 ≤ e % w := Int.emod_nonneg e hne
    have h3 : e % w < w := Int.emod_lt_of_pos e hw
    refine ⟨⟨e / w, ?_⟩, ?_, ?_⟩
    · rw [bucket_start, hfd, mul_comm]
    · rw [bucket_start, hfd, mul_comm]; linarith
    · rw [bucket_start, hfd, mul_comm]; linarith
  refine ⟨hmain, ?_, ?_⟩
  · intro samples sh eh width k
    unfold bucketSamples windowFilter
    rw [List.filter_filter, List.filter_filter]
    congr 1
    funext s
    rw [Bool.and_comm]
  · intro d
    obtain ⟨hdvd, hle, hlt⟩ := hmain (86400 * d + 29251) 60 (by omega)
    omega

/-- Witness for C6's theorem: the alignment bounds at epoch 29251,
width 60. -/
theorem bucket_assignment_epoch_aligned_witness :
    (0 : Int) < 60 ∧
    ((60 : Int) ∣ bucket_start 29251 60 ∧
     bucket_start 29251 60 ≤ 29251 ∧
     (29251 : Int) < bucket_start 29251 60 + 60) :=
  ⟨by decide, bucket_assignment_epoch_aligned.1 29251 60 (by decide)⟩

/-! ## C9: resolution detection -/

/-- C9 (confirmed): on a series of at most 1000 rows (full series examined,
no random subsample), the classification is second-level iff some
minute-truncated key covers more than one sample, and the empty series is
minute-level. -/
theorem resolution_detection_iff_multi_per_minute :
    ∀ (rows chosen : List TS), rows.length ≤ 1000 →
      ((detect_data_resolution rows chosen = true ↔
        ∃ t ∈ rows, 1 < (rows.map minuteKey).count (minuteKey t)) ∧
       detect_data_resolution [] chosen = false) := by
  intro rows chosen h
  constructor
  · unfold detect_data_resolution hasMultiPerMinute
    rw [if_neg (by omega)]
    rw [List.any_eq_true]
    constructor
    · rintro ⟨x, hx, hc⟩
      obtain ⟨t, ht, rfl⟩ := List.mem_map.mp hx
      exact ⟨t, ht, of_decide_eq_true hc⟩
    · rintro ⟨t, ht, hc⟩
      exact ⟨minuteKey t, List.mem_map.mpr ⟨t, ht, rfl⟩, decide_eq_true hc⟩
  · rfl

/-- Witness for C9's theorem: two samples inside minute 08:07 are
classified second-level. -/
theorem resolution_detection_iff_multi_per_minute_witness :
    ([⟨2024, 1, 1, 8, 7, 31⟩, ⟨2024, 1, 1, 8, 7, 45⟩] : List TS).length ≤ 1000 ∧
    ((detect_data_resolution [⟨2024, 1, 1, 8, 7, 31⟩, ⟨2024, 1, 1, 8, 7, 45⟩] [] = true ↔
      ∃ t ∈ ([⟨2024, 1, 1, 8, 7, 31⟩, ⟨2024, 1, 1, 8, 7, 45⟩] : List TS),
        1 < (([⟨2024, 1, 1, 8, 7, 31⟩, ⟨2024, 1, 1, 8, 7, 45⟩] : List TS).map minuteKey).count
              (minuteKey t)) ∧
     detect_data_resolution [] [] = false) :=
  ⟨by decide,
   resolution_detection_iff_multi_per_minute
     [⟨2024, 1, 1, 8, 7, 31⟩, ⟨2024, 1, 1, 8, 7, 45⟩] [] (by decide)⟩

/-! ## C10: resolution detection is not side-effect free -/

/-- C10 counterexample: a one-row series is a frame the detection call
mutates — the `minute_key` helper column is added in place, so the frame
after the call differs from the frame before it. -/
theorem resolution_detection_adds_minute_key_column :
    (detect_data_resolution_run ⟨[(⟨2024, 1, 1, 8, 7, 31⟩, 5)], []⟩ []).2 ≠
      (⟨[(⟨2024, 1, 1, 8, 7, 31⟩, 5)], []⟩ : Frame) ∧
    (detect_data_resolution_run ⟨[(⟨2024, 1, 1, 8, 7, 31⟩, 5)], []⟩ []).2.extraCols =
      ["minute_key"] := by
  constructor
  · intro h
    have := congrArg Frame.extraCols h
    simp [detect_data_resolution_run, hasMultiPerMinute] at this
  · rfl

/-- C10 (corrected): the detection call never changes the series' rows, but
on a series of at most 1000 rows it adds a `minute_key` column to the frame
in place (on larger series the column lands on the sampled copy and the
frame is untouched). -/
theorem resolution_detection_preserves_rows :
    ∀ (df : Frame) (chosen : List TS),
      (detect_data_resolution_run df chosen).2.rows = df.rows ∧
      (df.rows.length ≤ 1000 →
        "minute_key" ∈ (detect_data_resolution_run df chosen).2.extraCols) := by
  intro df chosen
  unfold detect_data_resolution_run
  split_ifs with h1 h2
  · exact ⟨rfl, fun hle => absurd hle (by omega)⟩
  · exact ⟨rfl, fun _ => h2⟩
  · exact ⟨rfl, fun _ => List.mem_append_right _ (List.mem_singleton_self _)⟩

/-- Witness for C10's theorem at a one-row frame. -/
theorem resolution_detection_preserves_rows_witness :
    ((detect_data_resolution_run ⟨[(⟨2024, 1, 1, 8, 7, 31⟩, 5)], ["extra"]⟩ []).2.rows =
      [((⟨2024, 1, 1, 8, 7, 31⟩ : TS), (5 : ℚ))] ∧
     (([((⟨2024, 1, 1, 8, 7, 31⟩ : TS), (5 : ℚ))] : List (TS × ℚ)).length ≤ 1000 →
       "minute_key" ∈
         (detect_data_resolution_run ⟨[(⟨2024, 1, 1, 8, 7, 31⟩, 5)], ["extra"]⟩ []).2.extraCols)) ∧
    "minute_key" ∈
      (detect_data_resolution_run ⟨[(⟨2024, 1, 1, 8, 7, 31⟩, 5)], ["extra"]⟩ []).2.extraCols :=
  ⟨resolution_detection_preserves_rows ⟨[(⟨2024, 1, 1, 8, 7, 31⟩, 5)], ["extra"]⟩ [],
   (resolution_detection_preserves_rows ⟨[(⟨2024, 1, 1, 8, 7, 31⟩, 5)], ["extra"]⟩ []).2
     (by decide)⟩

/-! ## C1: weekly weekday/weekend means -/

/-- Derived `BEq` on `Weekday` unfolds to decidable equality. -/
lemma weekday_beq (x y : Weekday) : (x == y) = decide (x = y) := rfl

/-- C1 counterexample: with a single Monday sample of value 10, the claim
says `weekday_mean` is the mean over present weekdays (10), but the code
yields `(10 + 0 + 0 + 0 + 0) / 5 = 2` — the four absent weekdays each
contribute a 0 term. -/
theorem weekday_mean_counts_absent_days :
    weekday_avg [(Weekday.monday, (10 : ℚ))] = 2 ∧
    meanOfList (dayValues [(Weekday.monday, (10 : ℚ))] Weekday.monday) = 10 ∧
    ((2 : ℚ) ≠ 10) := by
  refine ⟨?_, ?_, by norm_num⟩
  · simp +decide [weekday_avg, weekday_days, daily_avg, daily_avg_at,
      get_weekly_data, aggDay, dayValues, DAYS_OF_WEEK, meanOfList,
      List.find?, List.filter, weekday_beq]
    norm_num
  · norm_num [meanOfList, dayValues, List.filter, weekday_beq]

/-- C1 (corrected): after the reindex and `fillna(0)`, every weekday label
contributes a term to `weekday_mean` — an absent day contributes 0 — so
`weekday_mean` is the sum of the per-day means (absent days as 0) divided
by 5, and `weekend_mean` the weekend sum divided by 2; consequently each
side's mean is 0 when all its days are absent. -/
theorem weekday_mean_is_sum_over_five :
    ∀ samples : List (Weekday × ℚ),
      weekday_avg samples =
        ((DAYS_OF_WEEK.take 5).map
          (fun d => ((aggDay samples d).map WeekStats.mean).getD 0)).sum / 5 ∧
      weekend_avg samples =
        ((DAYS_OF_WEEK.drop 5).map
          (fun d => ((aggDay samples d).map WeekStats.mean).getD 0)).sum / 2 ∧
      ((∀ d ∈ DAYS_OF_WEEK.take 5, aggDay samples d = none) →
        weekday_avg samples = 0) ∧
      ((∀ d ∈ DAYS_OF_WEEK.drop 5, aggDay samples d = none) →
        weekend_avg samples = 0) := by
  intro samples
  have h1 : weekday_avg samples =
      ((DAYS_OF_WEEK.take 5).map
        (fun d => ((aggDay samples d).map WeekStats.mean).getD 0)).sum / 5 := rfl
  have h2 : weekend_avg samples =
      ((DAYS_OF_WEEK.drop 5).map
        (fun d => ((aggDay samples d).map WeekStats.mean).getD 0)).sum / 2 := rfl
  refine ⟨h1, h2, ?_, ?_⟩
  · intro h
    rw [h1]
    simp [DAYS_OF_WEEK, h Weekday.monday (by decide), h Weekday.tuesday (by decide),
      h Weekday.wednesday (by decide), h Weekday.thursday (by decide),
      h Weekday.friday (by decide)]
  · intro h
    rw [h2]
    simp [DAYS_OF_WEEK, h Weekday.saturday (by decide), h Weekday.sunday (by decide)]

/-- Witness for C1's theorem at the one-sample Monday series, discharging
the all-absent hypotheses on the weekend side via the empty series. -/
theorem weekday_mean_is_sum_over_five_witness :
    (∀ d ∈ DAYS_OF_WEEK.take 5, aggDay ([] : List (Weekday × ℚ)) d = none) ∧
    weekday_avg ([] : List (Weekday × ℚ)) = 0 :=
  ⟨by decide, (weekday_mean_is_sum_over_five []).2.2.1 (by decide)⟩

/-! ## C2: most / least active day -/

/-- Argmax correctness of `idxmaxAux`: the result is the seed or a list
element, and its value bounds the seed and every element from above. -/
lemma idxmaxAux_spec :
    ∀ (l : List (Weekday × ℚ)) (cur : Weekday × ℚ),
      (idxmaxAux cur l = cur ∨ idxmaxAux cur l ∈ l) ∧
      cur.2 ≤ (idxmaxAux cur l).2 ∧
      ∀ q ∈ l, q.2 ≤ (idxmaxAux cur l).2 := by
  intro l
  induction l with
  | nil => exact fun cur => ⟨Or.inl rfl, le_refl _, by simp⟩
  | cons q rest ih =>
      intro cur
      simp only [idxmaxAux]
      by_cases h : cur.2 < q.2
      · rw [if_pos h]
        obtain ⟨hmem, hle, hall⟩ := ih q
        refine ⟨?_, le_trans (le_of_lt h) hle, ?_⟩
        · rcases hmem with h' | h'
          · exact Or.inr (by rw [h']; exact List.mem_cons_self q rest)
          · exact Or.inr (List.mem_cons_of_mem q h')
        · intro x hx
          rcases List.mem_cons.mp hx with h' | h'
          · exact h' ▸ hle
          · exact hall x h'
      · rw [if_neg h]
        obtain ⟨hmem, hle, hall⟩ := ih cur
        refine ⟨?_, hle, ?_⟩
        · rcases hmem with h' | h'
          · exact Or.inl h'
          · exact Or.inr (List.mem_cons_of_mem q h')
        · intro x hx
          rcases List.mem_cons.mp hx with h' | h'
          · subst h'; exact le_trans (le_of_not_lt h) hle
          · exact hall x h'

/-- Argmin correctness of `idxminAux`. -/
lemma idxminAux_spec :
    ∀ (l : List (Weekday × ℚ)) (cur : Weekday × ℚ),
      (idxminAux cur l = cur ∨ idxminAux cur l ∈ l) ∧
      (idxminAux cur l).2 ≤ cur.2 ∧
      ∀ q ∈ l, (idxminAux cur l).2 ≤ q.2 := by
  intro l
  induction l with
  | nil => exact fun cur => ⟨Or.inl rfl, le_refl _, by simp⟩
  | cons q rest ih =>
      intro cur
      simp only [idxminAux]
      by_cases h : q.2 < cur.2
      · rw [if_pos h]
        obtain ⟨hmem, hle, hall⟩ := ih q
        refine ⟨?_, le_trans hle (le_of_lt h), ?_⟩
        · rcases hmem with h' | h'
          · exact Or.inr (by rw [h']; exact List.mem_cons_self q rest)
          · exact Or.inr (List.mem_cons_of_mem q h')
        · intro x hx
          rcases List.mem_cons.mp hx with h' | h'
          · exact h' ▸ hle
          · exact hall x h'
      · rw [if_neg h]
        obtain ⟨hmem, hle, hall⟩ := ih cur
        refine ⟨?_, hle, ?_⟩
        · rcases hmem with h' | h'
          · exact Or.inl h'
          · exact Or.inr (List.mem_cons_of_mem q h')
        · intro x hx
          rcases List.mem_cons.mp hx with h' | h'
          · subst h'; exact le_trans hle (le_of_not_lt h)
          · exact hall x h'

/-- C2 counterexample: with data only on Monday, `least_active_day` is
Tuesday — a day with no samples — because the zero-filled mean of every
absent day competes in the argmin; and on an empty (but loaded) series
both fields are Monday, not null. -/
theorem least_active_day_has_no_data :
    least_active_day [(Weekday.monday, (10 : ℚ))] = some Weekday.tuesday ∧
    dayValues [(Weekday.monday, (10 : ℚ))] Weekday.tuesday = [] ∧
    most_active_day ([] : List (Weekday × ℚ)) = some Weekday.monday ∧
    least_active_day ([] : List (Weekday × ℚ)) = some Weekday.monday := by
  refine ⟨?_, rfl, ?_, ?_⟩
  · simp +decide [least_active_day, daily_avg, get_weekly_data, aggDay,
      dayValues, DAYS_OF_WEEK, idxminAux, List.filter, weekday_beq]
  · simp +decide [most_active_day, daily_avg, get_weekly_data, aggDay,
      dayValues, DAYS_OF_WEEK, idxmaxAux, List.filter, weekday_beq]
  · simp +decide [least_active_day, daily_avg, get_weekly_data, aggDay,
      dayValues, DAYS_OF_WEEK, idxminAux, List.filter, weekday_beq]

/-- C2 (corrected): `most_active_day` / `least_active_day` are the first
argmax / argmin (in Monday→Sunday order) over all 7 labels of the
zero-filled per-day means, so a day with no data can win the argmin, and
both fields are always non-null. -/
theorem most_least_active_day_argminmax_filled :
    ∀ samples : List (Weekday × ℚ),
      (∃ p, p ∈ daily_avg samples ∧ most_active_day samples = some p.1 ∧
        ∀ q ∈ daily_avg samples, q.2 ≤ p.2) ∧
      (∃ p, p ∈ daily_avg samples ∧ least_active_day samples = some p.1 ∧
        ∀ q ∈ daily_avg samples, p.2 ≤ q.2) := by
  intro samples
  cases hd : daily_avg samples with
  | nil =>
      exfalso
      simp [daily_avg, get_weekly_data, DAYS_OF_WEEK] at hd
  | cons p rest =>
      constructor
      · obtain ⟨hmem, hle, hall⟩ := idxmaxAux_spec rest p
        refine ⟨idxmaxAux p rest, ?_, ?_, ?_⟩
        · rcases hmem with h' | h'
          · rw [h']; exact List.mem_cons_self p rest
          · exact List.mem_cons_of_mem p h'
        · simp only [most_active_day, hd]
        · intro q hq
          rcases List.mem_cons.mp hq with h' | h'
          · exact h' ▸ hle
          · exact hall q h'
      · obtain ⟨hmem, hle, hall⟩ := idxminAux_spec rest p
        refine ⟨idxminAux p rest, ?_, ?_, ?_⟩
        · rcases hmem with h' | h'
          · rw [h']; exact List.mem_cons_self p rest
          · exact List.mem_cons_of_mem p h'
        · simp only [least_active_day, hd]
        · intro q hq
          rcases List.mem_cons.mp hq with h' | h'
          · exact h' ▸ hle
          · exact hall q h'

/-! ## C7: candle emission policy -/

/-- `mkCandle` succeeds exactly on buckets of at least two samples. -/
lemma mkCandle_isSome_iff (g : List ℚ) :
    (∃ c, mkCandle g = some c) ↔ 2 ≤ g.length := by
  match g with
  | [] => simp [mkCandle]
  | [a] => simp [mkCandle]
  | a :: b :: rest => simp [mkCandle]

/-- A successful `mkCandle` takes `first`/`last` positionally and
`max`/`min` value-wise. -/
lemma mkCandle_spec (g : List ℚ) (c : Candle) (h : mkCandle g = some c) :
    c.first = g.headD 0 ∧ c.last = g.getLastD 0 ∧
    (∀ x ∈ g, c.min ≤ x ∧ x ≤ c.max) ∧ c.max ∈ g ∧ c.min ∈ g := by
  match g with
  | [] => simp [mkCandle] at h
  | [a] => simp [mkCandle] at h
  | a :: b :: rest =>
      rw [mkCandle, Option.some_inj] at h
      subst h
      refine ⟨rfl, ?_, ?_, ?_, ?_⟩
      · simp only [List.getLastD_cons]
      · intro x hx
        rcases List.mem_cons.mp hx with h' | h'
        · subst h'
          exact ⟨foldl_min_le_init (b :: rest) x, le_foldl_max_init (b :: rest) x⟩
        · exact ⟨foldl_min_le_mem (b :: rest) a x h', le_foldl_max_mem (b :: rest) a x h'⟩
      · rcases foldl_max_mem (b :: rest) a with h' | h'
        · rw [h']; exact List.mem_cons_self a (b :: rest)
        · exact List.mem_cons_of_mem a h'
      · rcases foldl_min_mem (b :: rest) a with h' | h'
        · rw [h']; exact List.mem_cons_self a (b :: rest)
        · exact List.mem_cons_of_mem a h'

/-- C7 (confirmed): a bucket key appears in `get_candle_data`'s output iff
its bucket holds at least 2 samples (0/1-sample buckets are dropped with no
error — the function is total), and an emitted candle's `first`/`last` are
the bucket's first and last samples in order while `max`/`min` bound and
belong to the bucket's values. -/
theorem candle_emitted_iff_two_samples :
    ∀ (samples : List (Int × ℚ)) (width k : Int),
      ((∃ c, (k, c) ∈ get_candle_data samples width) ↔
        2 ≤ (bucketSamples samples width k).length) ∧
      (∀ c, (k, c) ∈ get_candle_data samples width →
        c.first = ((bucketSamples samples width k).map Prod.snd).headD 0 ∧
        c.last = ((bucketSamples samples width k).map Prod.snd).getLastD 0 ∧
        (∀ x ∈ (bucketSamples samples width k).map Prod.snd,
          c.min ≤ x ∧ x ≤ c.max) ∧
        c.max ∈ (bucketSamples samples width k).map Prod.snd ∧
        c.min ∈ (bucketSamples samples width k).map Prod.snd) := by
  intro samples width k
  constructor
  · constructor
    · rintro ⟨c, hc⟩
      obtain ⟨k', hk', hf⟩ := List.mem_filterMap.mp hc
      obtain ⟨c', hc', heq⟩ := Option.map_eq_some'.mp hf
      have hkk : k' = k := congrArg Prod.fst heq
      subst hkk
      have h2 := (mkCandle_isSome_iff _).mp ⟨c', hc'⟩
      rwa [List.length_map] at h2
    · intro h2
      have hne : bucketSamples samples width k ≠ [] := by
        intro h
        rw [h] at h2
        simp at h2
      obtain ⟨s, hs⟩ := List.exists_mem_of_ne_nil _ hne
      have hsmem := (List.mem_filter.mp hs).1
      have hkey : bucket_start s.1 width = k :=
        beq_iff_eq.mp (List.mem_filter.mp hs).2
      have hk : k ∈ (samples.map (fun s => bucket_start s.1 width)).dedup :=
        List.mem_dedup.mpr (List.mem_map.mpr ⟨s, hsmem, hkey⟩)
      obtain ⟨c, hc⟩ := (mkCandle_isSome_iff
        ((bucketSamples samples width k).map Prod.snd)).mpr
        (by rw [List.length_map]; exact h2)
      refine ⟨c, List.mem_filterMap.mpr ⟨k, hk, ?_⟩⟩
      simp only [hc, Option.map_some']
  · intro c hc
    obtain ⟨k', hk', hf⟩ := List.mem_filterMap.mp hc
    obtain ⟨c', hc', heq⟩ := Option.map_eq_some'.mp hf
    have hkk : k' = k := congrArg Prod.fst heq
    have hcc : c' = c := congrArg Prod.snd heq
    subst hkk
    subst hcc
    exact mkCandle_spec _ c' hc'

/-- Witness for C7's theorem: the 60-second bucket starting at epoch 0 with
samples (0, 1) and (10, 2) emits the candle (first 1, last 2, max 2,
min 1). -/
theorem candle_emitted_iff_two_samples_witness :
    (((0 : Int), ({ first := 1, last := 2, max := 2, min := 1 } : Candle)) ∈
      get_candle_data [(0, 1), (10, 2)] 60) ∧
    (({ first := 1, last := 2, max := 2, min := 1 } : Candle).first =
        ((bucketSamples [(0, 1), (10, 2)] 60 0).map Prod.snd).headD 0 ∧
     ({ first := 1, last := 2, max := 2, min := 1 } : Candle).last =
        ((bucketSamples [(0, 1), (10, 2)] 60 0).map Prod.snd).getLastD 0 ∧
     (∀ x ∈ (bucketSamples [(0, 1), (10, 2)] 60 0).map Prod.snd,
        ({ first := 1, last := 2, max := 2, min := 1 } : Candle).min ≤ x ∧
        x ≤ ({ first := 1, last := 2, max := 2, min := 1 } : Candle).max) ∧
     ({ first := 1, last := 2, max := 2, min := 1 } : Candle).max ∈
        (bucketSamples [(0, 1), (10, 2)] 60 0).map Prod.snd ∧
     ({ first := 1, last := 2, max := 2, min := 1 } : Candle).min ∈
        (bucketSamples [(0, 1), (10, 2)] 60 0).map Prod.snd) :=
  ⟨by decide,
   (candle_emitted_iff_two_samples [(0, 1), (10, 2)] 60 0).2
     { first := 1, last := 2, max := 2, min := 1 } (by decide)⟩

/-! ## C8: week-view candles -/

/-- C8 counterexample: in the legacy `candle.py` week view, the Monday
candle for pooled samples (10, 20) has open 10 and close 20 — the actual
first and last samples, not the pooled mean 15 — and the legacy output has
a single row, not 7. -/
theorem legacy_week_candle_uses_actual_first_last :
    plot_week_view_candles_legacy [(Weekday.monday, (10 : ℚ)), (Weekday.monday, 20)] =
      [(Weekday.monday, { first := 10, last := 20, max := 20, min := 10 })] ∧
    meanOfList (dayValues [(Weekday.monday, (10 : ℚ)), (Weekday.monday, 20)]
      Weekday.monday) = 15 ∧
    (plot_week_view_candles_legacy
      [(Weekday.monday, (10 : ℚ)), (Weekday.monday, 20)]).length = 1 ∧
    ((10 : ℚ) ≠ 15) ∧ ((20 : ℚ) ≠ 15) := by
  refine ⟨by decide, ?_, by decide, by norm_num, by norm_num⟩
  norm_num [meanOfList, dayValues, List.filter, weekday_beq]

/-- C8 (corrected): in the v3 week view the weekly output is exactly the 7
weekday rows in Monday→Sunday order and every drawn candle has
open = close = pooled mean with max/min the true extrema; but in the legacy
`candle.py` week view, open/close are the actual first and last pooled
samples and days without data are skipped. -/
theorem week_view_open_close_semantics :
    ∀ samples : List (Weekday × ℚ),
      ((get_weekly_data samples).map Prod.fst = DAYS_OF_WEEK) ∧
      ((plot_week_view_candles samples).map Prod.fst = DAYS_OF_WEEK) ∧
      (∀ d c, (d, some c) ∈ plot_week_view_candles samples →
        dayValues samples d ≠ [] ∧
        c.first = c.last ∧
        c.first = meanOfList (dayValues samples d) ∧
        (∀ x ∈ dayValues samples d, c.min ≤ x ∧ x ≤ c.max) ∧
        c.max ∈ dayValues samples d ∧ c.min ∈ dayValues samples d) ∧
      (∀ d c, (d, c) ∈ plot_week_view_candles_legacy samples →
        dayValues samples d ≠ [] ∧
        c.first = (dayValues samples d).headD 0 ∧
        c.last = (dayValues samples d).getLastD 0) := by
  intro samples
  refine ⟨rfl, rfl, ?_, ?_⟩
  · intro d c hc
    obtain ⟨r, hr, heq⟩ := List.mem_map.mp hc
    obtain ⟨d', hd', hr'⟩ := List.mem_map.mp hr
    subst hr'
    have hd : d' = d := congrArg Prod.fst heq
    subst hd
    have hmap : (aggDay samples d').map
        (fun st =>
          ({ first := st.mean, last := st.mean, max := st.max, min := st.min } : Candle)) =
        some c := congrArg Prod.snd heq
    obtain ⟨st, hst, hc'⟩ := Option.map_eq_some'.mp hmap
    subst hc'
    rw [aggDay] at hst
    cases hv : dayValues samples d' with
    | nil => rw [hv] at hst; exact absurd hst (by simp)
    | cons a rest =>
        rw [hv] at hst
        rw [Option.some_inj] at hst
        subst hst
        refine ⟨by simp, rfl, rfl, ?_, ?_, ?_⟩
        · intro x hx
          rcases List.mem_cons.mp hx with h' | h'
          · subst h'
            exact ⟨foldl_min_le_init rest x, le_foldl_max_init rest x⟩
          · exact ⟨foldl_min_le_mem rest a x h', le_foldl_max_mem rest a x h'⟩
        · rcases foldl_max_mem rest a with h' | h'
          · rw [h']; exact List.mem_cons_self a rest
          · exact List.mem_cons_of_mem a h'
        · rcases foldl_min_mem rest a with h' | h'
          · rw [h']; exact List.mem_cons_self a rest
          · exact List.mem_cons_of_mem a h'
  · intro d c hc
    obtain ⟨d', hd', hf⟩ := List.mem_filterMap.mp hc
    cases hv : dayValues samples d' with
    | nil => rw [plot_week_view_candles_legacy] at hc; rw [hv] at hf; exact absurd hf (by simp)
    | cons a rest =>
        rw [hv] at hf
        rw [Option.some_inj] at hf
        have hd : d' = d := congrArg Prod.fst hf
        subst hd
        have hcc :
            ({ first := a, last := (a :: rest).getLastD a, max := rest.foldl max a,
               min := rest.foldl min a } : Candle) = c :=
          congrArg Prod.snd hf
        subst hcc
        rw [hv]
        refine ⟨by simp, rfl, ?_⟩
        simp only [List.getLastD_cons]

/-- Witness for C8's theorem: pooled Monday samples (10, 20) give the v3
candle (15, 15, 20, 10) and the legacy candle (10, 20, 20, 10). -/
theorem week_view_open_close_semantics_witness :
    ((Weekday.monday, some ({ first := 15, last := 15, max := 20, min := 10 } : Candle)) ∈
      plot_week_view_candles [(Weekday.monday, (10 : ℚ)), (Weekday.monday, 20)]) ∧
    (dayValues [(Weekday.monday, (10 : ℚ)), (Weekday.monday, 20)] Weekday.monday ≠ [] ∧
     ({ first := 15, last := 15, max := 20, min := 10 } : Candle).first =
        ({ first := 15, last := 15, max := 20, min := 10 } : Candle).last ∧
     ({ first := 15, last := 15, max := 20, min := 10 } : Candle).first =
        meanOfList (dayValues [(Weekday.monday, (10 : ℚ)), (Weekday.monday, 20)]
          Weekday.monday) ∧
     (∀ x ∈ dayValues [(Weekday.monday, (10 : ℚ)), (Weekday.monday, 20)] Weekday.monday,
        ({ first := 15, last := 15, max := 20, min := 10 } : Candle).min ≤ x ∧
        x ≤ ({ first := 15, last := 15, max := 20, min := 10 } : Candle).max) ∧
     ({ first := 15, last := 15, max := 20, min := 10 } : Candle).max ∈
        dayValues [(Weekday.monday, (10 : ℚ)), (Weekday.monday, 20)] Weekday.monday ∧
     ({ first := 15, last := 15, max := 20, min := 10 } : Candle).min ∈
        dayValues [(Weekday.monday, (10 : ℚ)), (Weekday.monday, 20)] Weekday.monday) ∧
    ((Weekday.monday, ({ first := 10, last := 20, max := 20, min := 10 } : Candle)) ∈
      plot_week_view_candles_legacy [(Weekday.monday, (10 : ℚ)), (Weekday.monday, 20)]) ∧
    (dayValues [(Weekday.monday, (10 : ℚ)), (Weekday.monday, 20)] Weekday.monday ≠ [] ∧
     ({ first := 10, last := 20, max := 20, min := 10 } : Candle).first =
        (dayValues [(Weekday.monday, (10 : ℚ)), (Weekday.monday, 20)]
          Weekday.monday).headD 0 ∧
     ({ first := 10, last := 20, max := 20, min := 10 } : Candle).last =
        (dayValues [(Weekday.monday, (10 : ℚ)), (Weekday.monday, 20)]
          Weekday.monday).getLastD 0) := by
  have hm : (Weekday.monday,
      some ({ first := 15, last := 15, max := 20, min := 10 } : Candle)) ∈
      plot_week_view_candles [(Weekday.monday, (10 : ℚ)), (Weekday.monday, 20)] := by
    simp +decide [plot_week_view_candles, get_weekly_data, aggDay, dayValues,
      DAYS_OF_WEEK, List.filter, weekday_beq, Candle.mk.injEq]
    norm_num
  have hl : (Weekday.monday,
      ({ first := 10, last := 20, max := 20, min := 10 } : Candle)) ∈
      plot_week_view_candles_legacy [(Weekday.monday, (10 : ℚ)), (Weekday.monday, 20)] := by
    decide
  exact ⟨hm,
    (week_view_open_close_semantics [(Weekday.monday, 10), (Weekday.monday, 20)]).2.2.1
      Weekday.monday _ hm,
    hl,
    (week_view_open_close_semantics [(Weekday.monday, 10), (Weekday.monday, 20)]).2.2.2
      Weekday.monday _ hl⟩


/-- Witness for C2's theorem at the one-sample Monday series. -/
theorem most_least_active_day_argminmax_filled_witness :
    (∃ p, p ∈ daily_avg [(Weekday.monday, (10 : ℚ))] ∧
      most_active_day [(Weekday.monday, (10 : ℚ))] = some p.1 ∧
      ∀ q ∈ daily_avg [(Weekday.monday, (10 : ℚ))], q.2 ≤ p.2) ∧
    (∃ p, p ∈ daily_avg [(Weekday.monday, (10 : ℚ))] ∧
      least_active_day [(Weekday.monday, (10 : ℚ))] = some p.1 ∧
      ∀ q ∈ daily_avg [(Weekday.monday, (10 : ℚ))], p.2 ≤ q.2) :=
  most_least_active_day_argminmax_filled [(Weekday.monday, 10)]

/-- Witness for C4's theorem: the rule chain instantiated at the segment
means (50, 30, 50). -/
theorem day_pattern_priority_order_witness :
    (dayPatternType 50 30 50 = "morning_peak" ↔ ((50 : ℚ) > 30 ∧ (50 : ℚ) > 50)) ∧
    (dayPatternType 50 30 50 = "evening_peak" ↔
      (¬((50 : ℚ) > 30 ∧ (50 : ℚ) > 50) ∧ ((50 : ℚ) > 50 ∧ (50 : ℚ) > 30))) ∧
    (dayPatternType 50 30 50 = "midday_peak" ↔
      (¬((50 : ℚ) > 30 ∧ (50 : ℚ) > 50) ∧ ¬((50 : ℚ) > 50 ∧ (50 : ℚ) > 30) ∧
        ((30 : ℚ) > 50 ∧ (30 : ℚ) > 50))) ∧
    (dayPatternType 50 30 50 = "bimodal" ↔
      (¬((50 : ℚ) > 30 ∧ (50 : ℚ) > 50) ∧ ¬((50 : ℚ) > 50 ∧ (50 : ℚ) > 30) ∧
        ¬((30 : ℚ) > 50 ∧ (30 : ℚ) > 50) ∧ (|(50 : ℚ) - 50| < 5 ∧ (50 : ℚ) > 30))) ∧
    (dayPatternType 50 30 50 = "consistent" ↔
      (¬((50 : ℚ) > 30 ∧ (50 : ℚ) > 50) ∧ ¬((50 : ℚ) > 50 ∧ (50 : ℚ) > 30) ∧
        ¬((30 : ℚ) > 50 ∧ (30 : ℚ) > 50) ∧ ¬(|(50 : ℚ) - 50| < 5 ∧ (50 : ℚ) > 30))) :=
  day_pattern_priority_order.1 50 30 50

end KinetiCandles
